import Mathlib

/-
  Verification of the zense-bridge MQTT/TCP lighting bridge
  (src/zensehome-bridge-addon/zensehome_bridge/zense_mqtt_bridge.py).

  Shallow embedding conventions:
  * Python strings are modelled as `List Char` (`Str`); the relevant string
    operations (`split`, `strip`, `lower`, `isdigit`-guarded `int`) are
    re-implemented structurally so that they evaluate inside the kernel.
  * Python dicts keyed by device id are modelled as functions
    `Int → Option _`.  (`Bridge.last_level_pub` is keyed by the uid string
    `f"zensebridge_{did}"`, which is an injective function of `did`, so a
    map keyed by `did` is an exact model.)
  * The queue kinds are the five string constants "off" / "on" / "level" /
    "discover" / "refresh"; these are the only values ever enqueued, so they
    are modelled by the enumeration `Kind`.
-/

namespace ZenseBridge

abbrev Str := List Char

/-- The dataclass `Pending` (off / on / level; `level` wins over `on`). -/
structure Pending where
  off : Bool
  «on» : Bool
  level : Option Int
deriving DecidableEq, Repr

/-- A fresh `Pending()`: all fields at their defaults. -/
def Pending.empty : Pending := ⟨false, false, none⟩

/-- The five command kinds that are ever put on `cmd_q`. -/
inductive Kind where
  | off
  | «on»
  | level
  | discover
  | refresh
deriving DecidableEq, Repr

/-- Python `max(0, min(BRIGHTNESS_SCALE, x))` with `BRIGHTNESS_SCALE = 100`. -/
def clamp100 (x : Int) : Int := max 0 (min 100 x)

/-- Per-device branch of `Bridge._accumulate` (the body under
`kind == "off" / "on" / "level"`); `val or 0` is `val.getD 0`.
For the two fleet kinds (handled at map level) the device state is untouched. -/
def accumulateDev (p : Pending) (kind : Kind) (val : Option Int) : Pending :=
  match kind with
  | .off => ⟨true, false, none⟩
  | .«on» => if p.off = false ∧ p.level = none then ⟨p.off, true, p.level⟩ else p
  | .level =>
    let lvl := clamp100 (val.getD 0)
    if lvl = 0 then ⟨true, false, none⟩ else ⟨false, false, some lvl⟩
  | _ => p

/-- `Bridge._accumulate`: merge one queued `(kind, did, val)` tuple into the
pending map.  `discover` / `refresh` set the fleet entry's `on` / `off` flag
(at key 0); the device kinds update the entry at `did`. -/
def accumulate (pending : Int → Option Pending) (kind : Kind) (did : Int)
    (val : Option Int) : Int → Option Pending :=
  match kind with
  | .discover =>
    let p := (pending 0).getD Pending.empty
    fun k => if k = 0 then some ⟨p.off, true, p.level⟩ else pending k
  | .refresh =>
    let p := (pending 0).getD Pending.empty
    fun k => if k = 0 then some ⟨true, p.«on», p.level⟩ else pending k
  | _ =>
    let p := (pending did).getD Pending.empty
    fun k => if k = did then some (accumulateDev p kind val) else pending k

/-- Round-to-nearest with ties to even of the nonnegative fraction
`num / den` (`den > 0`): Python's `round()` on the exact rational.
`scale_brightness` computes `round(raw / 255.0 * 100)` in double precision;
for the integer inputs `101 ≤ raw ≤ 255` the exact value `raw * 20 / 51` is
never within `2⁻⁴⁰` of a half-integer, while the float error is below
`2⁻⁴⁵`, so rounding the exact rational is a faithful model. -/
def roundHalfEven (num den : Int) : Int :=
  let q := num / den
  let r := num % den
  if 2 * r < den then q
  else if den < 2 * r then q + 1
  else if q % 2 = 0 then q else q + 1

/-- `scale_brightness`: negative ↦ 0; `raw ≤ 100` passes through; otherwise
clamp to 255 and rescale `0–255 → 0–100`, rounding to nearest. -/
def scale_brightness (raw : Int) : Int :=
  if raw < 0 then 0
  else if raw ≤ 100 then raw
  else roundHalfEven (min raw 255 * 100) 255

/-- C6: `scale_brightness` maps 255 to 100 and 128 to 50; every input in
`[0, 100]` maps to itself; every negative input maps to 0; every input above
100 is clamped to 255 and rescaled as `round(raw * 100 / 255)`. -/
theorem scale_brightness_spec :
    scale_brightness 255 = 100 ∧ scale_brightness 128 = 50 ∧
    (∀ r : Int, 0 ≤ r → r ≤ 100 → scale_brightness r = r) ∧
    (∀ r : Int, r < 0 → scale_brightness r = 0) ∧
    (∀ r : Int, 100 < r → scale_brightness r = roundHalfEven (min r 255 * 100) 255) := by
  refine ⟨by decide, by decide, ?_, ?_, ?_⟩
  · intro r h0 h1
    unfold scale_brightness
    rw [if_neg (by omega), if_pos h1]
  · intro r h
    unfold scale_brightness
    rw [if_pos h]
  · intro r h
    unfold scale_brightness
    rw [if_neg (by omega), if_neg (by omega)]

/-- Witness for C6: the three quantified parts evaluated at 42, -7 and 300. -/
theorem scale_brightness_spec_witness :
    scale_brightness 42 = 42 ∧ scale_brightness (-7) = 0 ∧
    scale_brightness 300 = roundHalfEven (min 300 255 * 100) 255 :=
  ⟨scale_brightness_spec.2.2.1 42 (by decide) (by decide),
   scale_brightness_spec.2.2.2.1 (-7) (by decide),
   scale_brightness_spec.2.2.2.2 300 (by decide)⟩

/-- True of the device intents `(kind, val)` that translate to an On queue
tuple. -/
def isOnK (x : Kind × Option Int) : Bool :=
  match x.1 with
  | .«on» => true
  | _ => false

/-- The directive (if any) that one intent contributes under the §4.2
precedence table: Off and Level(0) contribute `some none` (an off
directive), Level(v) with clamped `v ≠ 0` contributes `some (some v)`, On
contributes nothing. -/
def dirOf (x : Kind × Option Int) : Option (Option Int) :=
  match x.1 with
  | .off => some none
  | .level =>
    let c := clamp100 (x.2.getD 0)
    some (if c = 0 then none else some c)
  | _ => none

/-- The last Off-or-Level directive of a sequence of device intents (later
intents are further right in the list). -/
def lastDirective : List (Kind × Option Int) → Option (Option Int)
  | [] => none
  | x :: s =>
    match lastDirective s with
    | some d => some d
    | none => dirOf x

/-- Modelled from the spec (§4.2 precedence table and §8): the final
`PendingState` the table prescribes for a whole sequence of Level/Off/On
intents for one device.  The last Off-or-Level intent wins (with Level(0)
acting as Off and only the last Level value retained); an On intent survives
exactly when the sequence contains no Off or Level intent at all. -/
def specFinal (s : List (Kind × Option Int)) : Pending :=
  match lastDirective s with
  | some none => ⟨true, false, none⟩
  | some (some v) => ⟨false, false, some v⟩
  | none => if s.any isOnK then ⟨false, true, none⟩ else ⟨false, false, none⟩

/-- Folding the per-device merge over a sequence of intents, from an
arbitrary starting state: the result is dictated by the last Off-or-Level
directive, and when there is none, by whether any On intent occurs. -/
theorem foldDev_char (s : List (Kind × Option Int)) : ∀ p : Pending,
    s.foldl (fun q x => accumulateDev q x.1 x.2) p =
      match lastDirective s with
      | some none => ⟨true, false, none⟩
      | some (some v) => ⟨false, false, some v⟩
      | none =>
        if s.any isOnK then
          (if p.off = false ∧ p.level = none then ⟨p.off, true, p.level⟩ else p)
        else p := by
  induction s with
  | nil => intro p; simp [lastDirective]
  | cons x rest ih =>
    intro p
    rw [List.foldl_cons, ih (accumulateDev p x.1 x.2)]
    rcases hld : lastDirective rest with _ | d
    · rcases x with ⟨k, v⟩
      cases k with
      | off =>
        simp only [lastDirective, hld, dirOf, accumulateDev, List.any_cons, isOnK]
        split <;> simp
      | «on» =>
        simp only [lastDirective, hld, dirOf, accumulateDev, List.any_cons, isOnK,
          Bool.true_or, if_pos]
        by_cases hc : p.off = false ∧ p.level = none
        · rw [if_pos hc]
          simp [hc.1, hc.2]
        · rw [if_neg hc, if_neg hc]
          split <;> rfl
      | level =>
        simp only [lastDirective, hld, dirOf, accumulateDev, List.any_cons, isOnK]
        by_cases hc : clamp100 (v.getD 0) = 0
        · rw [if_pos hc]
          simp only [hc, if_pos rfl]
          split <;> simp
        · rw [if_neg hc]
          simp only [if_neg hc]
          split <;> simp
      | discover =>
        simp only [lastDirective, hld, dirOf, accumulateDev, List.any_cons, isOnK,
          Bool.false_or]
      | refresh =>
        simp only [lastDirective, hld, dirOf, accumulateDev, List.any_cons, isOnK,
          Bool.false_or]
    · rcases d with _ | v <;> simp [lastDirective, hld]

/-- For a sequence of pure device intents (kinds off/on/level only), folding
the full map-level merge and projecting at the device key equals folding the
per-device merge from a fresh `Pending`. -/
theorem foldMap_proj (did : Int) :
    ∀ (s : List (Kind × Option Int)) (m : Int → Option Pending),
      (∀ x ∈ s, x.1 = Kind.off ∨ x.1 = Kind.«on» ∨ x.1 = Kind.level) → s ≠ [] →
      (s.foldl (fun q x => accumulate q x.1 did x.2) m) did =
        some (s.foldl (fun q x => accumulateDev q x.1 x.2) ((m did).getD Pending.empty)) := by
  intro s
  induction s with
  | nil => intro m _ hne; exact absurd rfl hne
  | cons x rest ih =>
    intro m hk _
    have hx := hk x (List.mem_cons_self x rest)
    have hstep : (accumulate m x.1 did x.2) did =
        some (accumulateDev ((m did).getD Pending.empty) x.1 x.2) := by
      rcases hx with h | h | h <;> rw [h] <;> simp [accumulate]
    rcases hre : rest with _ | ⟨y, t⟩
    · simpa using hstep
    · rw [← hre]
      have hne : rest ≠ [] := by rw [hre]; exact List.cons_ne_nil y t
      rw [List.foldl_cons, List.foldl_cons,
        ih (accumulate m x.1 did x.2) (fun z hz => hk z (List.mem_cons_of_mem x hz)) hne,
        hstep]
      simp

/-- C1 (amended): for every nonempty sequence of Level/Off/On intents for one
concrete device merged via `_accumulate` into an initially-empty pending map,
the final `PendingState` is the one the §4.2 precedence table prescribes for
the sequence: it is decided by the *last* Off-or-Level intent (Level(0)
counting as Off, so only the last Level value is retained), and an On intent
takes effect only when the sequence contains no Off or Level intent at all.
Arrival order is immaterial only in that sense; the relative order of Off and
Level intents does matter (last writer wins). -/
theorem accumulate_seq_characterization (s : List (Kind × Option Int)) (did : Int)
    (hk : ∀ x ∈ s, x.1 = Kind.off ∨ x.1 = Kind.«on» ∨ x.1 = Kind.level)
    (hne : s ≠ []) (hdev : did ≠ 0) :
    (s.foldl (fun q x => accumulate q x.1 did x.2) (fun _ => none)) did =
      some (specFinal s) := by
  rw [foldMap_proj did s (fun _ => none) hk hne]
  have h0 : ((fun _ : Int => (none : Option Pending)) did).getD Pending.empty =
      Pending.empty := rfl
  rw [h0, foldDev_char s Pending.empty]
  unfold specFinal
  rcases lastDirective s with _ | ⟨_ | v⟩ <;> simp [Pending.empty]

/-- Counterexample to C1 as stated: the merge is not arrival-order
independent.  Level(50) then Off ends with the device off, while Off then
Level(50) ends with a pending level of 50 — and the sequence contains only a
single Level intent, so the claim's multiple-Level exception does not apply. -/
theorem accumulate_order_dependent_cex :
    ¬ (([((Kind.level : Kind), (some 50 : Option Int)), (Kind.off, none)].foldl
          (fun q x => accumulate q x.1 5 x.2) (fun _ => none)) 5 =
       ([((Kind.off : Kind), (none : Option Int)), (Kind.level, some 50)].foldl
          (fun q x => accumulate q x.1 5 x.2) (fun _ => none)) 5) := by
  decide

/-- Witness for C1: the two-intent sequence Level(30) then Off for device 5. -/
theorem accumulate_seq_characterization_witness :
    (([((Kind.level : Kind), (some 30 : Option Int)), (Kind.off, none)].foldl
        (fun q x => accumulate q x.1 5 x.2) (fun _ => none)) 5 =
      some (specFinal [(Kind.level, some 30), (Kind.off, none)])) ∧
    specFinal [((Kind.level : Kind), (some 30 : Option Int)), (Kind.off, none)] =
      ⟨true, false, none⟩ :=
  ⟨accumulate_seq_characterization _ 5 (by decide) (by decide) (by decide), by decide⟩

/-- C7: merging a Level intent whose clamped value is 0 produces exactly the
same pending map as merging an Off intent for that device, and the resulting
per-device state is `off=true, on=false, level=none`. -/
theorem level_zero_eq_off (m : Int → Option Pending) (did : Int) (v : Option Int)
    (h : clamp100 (v.getD 0) = 0) :
    accumulate m Kind.level did v = accumulate m Kind.off did none ∧
    accumulateDev ((m did).getD Pending.empty) Kind.level v = ⟨true, false, none⟩ := by
  constructor
  · funext k
    simp [accumulate, accumulateDev, h]
  · simp [accumulateDev, h]

/-- Witness for C7: a Level(0) intent for device 5 on the empty map. -/
theorem level_zero_eq_off_witness :
    clamp100 ((some (0 : Int)).getD 0) = 0 ∧
    accumulate (fun _ => none) Kind.level 5 (some 0) =
      accumulate (fun _ => none) Kind.off 5 none :=
  ⟨by decide, (level_zero_eq_off (fun _ => none) 5 (some 0) (by decide)).1⟩

/-- `Bridge.pub_state`: clamp the level, skip when it equals the recorded
last-published level for the device, otherwise record it and publish.
Returns the updated `last_level_pub` map and the published level (if any). -/
def pub_state (st : Int → Option Int) (did l : Int) :
    (Int → Option Int) × Option Int :=
  if st did = some (clamp100 l) then (st, none)
  else (fun k => if k = did then some (clamp100 l) else st k, some (clamp100 l))

/-- Run a sequence of `pub_state` calls `(did, level)` threading the
`last_level_pub` map, collecting the `(did, level)` pairs actually
published. -/
def runPubs (st : Int → Option Int) : List (Int × Int) → List (Int × Int)
  | [] => []
  | c :: rest =>
    (match (pub_state st c.1 c.2).2 with
     | some lvl => [(c.1, lvl)]
     | none => []) ++ runPubs (pub_state st c.1 c.2).1 rest

/-- The levels published for one device, in order. -/
def pubsFor (d : Int) (evs : List (Int × Int)) : List Int :=
  evs.filterMap (fun e => if e.1 = d then some e.2 else none)

theorem pubsFor_cons (d x y : Int) (tail : List (Int × Int)) :
    pubsFor d ((x, y) :: tail) =
      if x = d then y :: pubsFor d tail else pubsFor d tail := by
  by_cases h : x = d <;> simp [pubsFor, List.filterMap_cons, h]

/-- C5: for every device, the per-device sequence of levels actually
published by `pub_state` never repeats a level twice in a row — even when
prefixed by the level recorded in the `last_level_pub` map at the start —
and a call whose clamped level equals the recorded level publishes nothing
and leaves the map untouched. -/
theorem pub_state_dedup :
    (∀ (calls : List (Int × Int)) (st : Int → Option Int) (d : Int),
      List.Chain' (fun a b => a ≠ b)
        ((st d).toList ++ pubsFor d (runPubs st calls))) ∧
    (∀ (st : Int → Option Int) (did l : Int),
      st did = some (clamp100 l) → pub_state st did l = (st, none)) := by
  constructor
  · intro calls
    induction calls with
    | nil =>
      intro st d
      cases h : st d <;> simp [runPubs, pubsFor, h]
    | cons c rest ih =>
      intro st d
      by_cases h : st c.1 = some (clamp100 c.2)
      · have hr : runPubs st (c :: rest) = runPubs st rest := by
          simp [runPubs, pub_state, h]
        rw [hr]
        exact ih st d
      · have hr : runPubs st (c :: rest) =
            (c.1, clamp100 c.2) ::
              runPubs (fun k => if k = c.1 then some (clamp100 c.2) else st k) rest := by
          simp [runPubs, pub_state, h]
        rw [hr]
        by_cases hd : c.1 = d
        · subst hd
          have h2 := ih (fun k => if k = c.1 then some (clamp100 c.2) else st k) c.1
          simp only [if_pos rfl, Option.toList_some, List.singleton_append] at h2
          rw [pubsFor_cons, if_pos rfl]
          cases hsd : st c.1 with
          | none => simpa using h2
          | some a =>
            have hne : a ≠ clamp100 c.2 := by
              intro he
              exact h (by rw [hsd, he])
            simpa [List.chain'_cons] using And.intro hne h2
        · have hst2 : (fun k => if k = c.1 then some (clamp100 c.2) else st k) d = st d :=
            if_neg (fun he => hd he.symm)
          rw [pubsFor_cons, if_neg hd, ← hst2]
          exact ih (fun k => if k = c.1 then some (clamp100 c.2) else st k) d
  · intro st did l h
    simp [pub_state, h]

/-- Witness for C5: three calls for device 1 (50, 50, 80) from an empty map,
and a skipped call when the recorded level already equals the clamped level. -/
theorem pub_state_dedup_witness :
    ((fun _ : Int => some (50 : Int)) 1 = some (clamp100 50)) ∧
    List.Chain' (fun a b => a ≠ b)
      ((((fun _ : Int => (none : Option Int)) 1).toList) ++
        pubsFor 1 (runPubs (fun _ => none) [(1, 50), (1, 50), (1, 80)])) ∧
    pub_state (fun _ : Int => some (50 : Int)) 1 50 = (fun _ => some 50, none) :=
  ⟨by decide,
   pub_state_dedup.1 [(1, 50), (1, 50), (1, 80)] (fun _ => none) 1,
   pub_state_dedup.2 (fun _ => some 50) 1 50 (by decide)⟩

/-- ASCII upper-casing of one character (the payloads compared against are
"ON"/"OFF", for which Python's full-Unicode `str.upper` agrees with ASCII). -/
def asciiUpper (c : Char) : Char :=
  if c.isLower then Char.ofNat (c.toNat - 32) else c

/-- Python `payload.upper()` on the ASCII fragment. -/
def upperCL (s : Str) : Str := s.map asciiUpper

/-- A `(kind, did, val)` tuple as placed on `cmd_q`. -/
abbrev QItem := Kind × Int × Option Int

/-- The `.../brightness/set` branch of `Bridge.on_message`, after the numeric
payload has been parsed to `raw`: scale the brightness, record
`last_level_ts[did] = now`, and enqueue a level intent.  Returns the updated
timestamp map and the enqueued tuple. -/
def on_msg_brightness (last_ts : Int → Option ℚ) (now : ℚ) (did : Int)
    (raw : Int) : (Int → Option ℚ) × QItem :=
  (fun k => if k = did then some now else last_ts k,
   (Kind.level, did, some (scale_brightness raw)))

/-- The `.../set` branch of `Bridge.on_message`: "OFF" enqueues an off
intent; "ON" is dropped when `now - last_level_ts.get(did, 0.0)` is within
`LEVEL_ON_WINDOW_SEC` and enqueued otherwise; any other payload is ignored.
Returns the enqueued tuple, if any. -/
def on_msg_set (payload : Str) (last_ts : Int → Option ℚ) (now window : ℚ)
    (did : Int) : Option QItem :=
  if upperCL payload = "OFF".toList then some (Kind.off, did, none)
  else if upperCL payload = "ON".toList then
    (if now - (last_ts did).getD 0 ≤ window then none
     else some (Kind.«on», did, none))
  else none

/-- C8: an external ON command for a device is dropped when it arrives within
the suppression window of the most recent recorded brightness intent for that
same device, and is enqueued as an on intent once the window has elapsed. -/
theorem on_after_level_suppression (ts0 : Int → Option ℚ) (now1 now2 window : ℚ)
    (did raw : Int) (payload : Str) (hup : upperCL payload = "ON".toList) :
    (now2 - now1 ≤ window →
      on_msg_set payload (on_msg_brightness ts0 now1 did raw).1 now2 window did =
        none) ∧
    (window < now2 - now1 →
      on_msg_set payload (on_msg_brightness ts0 now1 did raw).1 now2 window did =
        some (Kind.«on», did, none)) := by
  have hts : (on_msg_brightness ts0 now1 did raw).1 did = some now1 := by
    simp [on_msg_brightness]
  constructor
  · intro h
    unfold on_msg_set
    rw [hup, if_neg (by decide), if_pos rfl, hts]
    simp [h]
  · intro h
    unfold on_msg_set
    rw [hup, if_neg (by decide), if_pos rfl, hts]
    simp [not_le.mpr h]

/-- Witness for C8: a brightness intent for device 7 at t=10 followed by an
"on" payload at t=10.5 with a 1-second window is dropped. -/
theorem on_after_level_suppression_witness :
    upperCL "on".toList = "ON".toList ∧ ((21 / 2 : ℚ) - 10 ≤ 1) ∧
    on_msg_set "on".toList (on_msg_brightness (fun _ => none) 10 7 128).1
      (21 / 2) 1 7 = none :=
  ⟨by decide, by norm_num,
   (on_after_level_suppression (fun _ => none) 10 (21 / 2) 1 7 128 "on".toList
      (by decide)).1 (by norm_num)⟩

/-- Response oracle for the single `ZenseClient` session during one flush:
the (parsed) results and raw responses its methods would return.  An empty
response list models a failed / unconfirmed operation (`""` in the source). -/
structure ZClient where
  devices : List Int
  name : Int → Str
  levelQ : Int → Option Int
  offResp : Int → Str
  fadeResp : Int → Int → Str
  onResp : Int → Str

/-- Observable events of one `Bridge._execute` flush, in order: controller
operations, MQTT publishes, and the fixed inter-command pacing gap. -/
inductive Ev where
  | getDevices (ids : List Int)
  | getName (did : Int) (nm : Str)
  | pubDiscovery (did : Int) (nm : Str)
  | getLevel (did : Int)
  | setOff (did : Int)
  | fade (did : Int) (lvl : Int)
  | setOn (did : Int)
  | pubState (did : Int) (lvl : Int)
  | gap
deriving DecidableEq, Repr

/-- The per-device body of `_execute`'s final loop: skip the fleet entry;
otherwise issue Off / Fade(level) / On in that priority, call `pub_state`
only on a non-empty response, and always sleep the pacing gap after the
operation.  (The `pubState` event records the `pub_state` call; its internal
dedup is modelled separately by `pub_state`.) -/
def execDevice (z : ZClient) (did : Int) (p : Pending) : List Ev :=
  if did = 0 then []
  else if p.off then
    Ev.setOff did ::
      ((if z.offResp did ≠ [] then [Ev.pubState did 0] else []) ++ [Ev.gap])
  else
    match p.level with
    | some l =>
      Ev.fade did (clamp100 l) ::
        ((if z.fadeResp did (clamp100 l) ≠ [] then [Ev.pubState did l] else []) ++
          [Ev.gap])
    | none =>
      if p.«on» then
        Ev.setOn did ::
          ((if z.onResp did ≠ [] then [Ev.pubState did 100] else []) ++ [Ev.gap])
      else []

/-- `_execute`'s device loop over the snapshot `items`. -/
def execDevices (z : ZClient) : List (Int × Pending) → List Ev
  | [] => []
  | x :: rest => execDevice z x.1 x.2 ++ execDevices z rest

/-- `_execute`'s discovery loop body: per discovered id, one name query, one
discovery publish, one pacing gap. -/
def discEvents (z : ZClient) : List Int → List Ev
  | [] => []
  | did :: rest =>
    Ev.getName did (z.name did) :: Ev.pubDiscovery did (z.name did) :: Ev.gap ::
      discEvents z rest

/-- `_execute`'s refresh loop body: per known id, one level query, a state
publish when the level parsed, one pacing gap. -/
def refreshEvents (z : ZClient) : List Int → List Ev
  | [] => []
  | did :: rest =>
    Ev.getLevel did ::
      ((match z.levelQ did with
        | some l => [Ev.pubState did l]
        | none => []) ++ (Ev.gap :: refreshEvents z rest))

/-- `any(did == 0 and p.on for did, p in items)`. -/
def doDiscover (items : List (Int × Pending)) : Bool :=
  items.any fun x => decide (x.1 = 0) && x.2.«on»

/-- `any(did == 0 and p.off for did, p in items)`. -/
def doRefresh (items : List (Int × Pending)) : Bool :=
  items.any fun x => decide (x.1 = 0) && x.2.off

/-- The known-device list after the flush: replaced by `get_devices`' result
only when discovery ran and that result is non-empty. -/
def known1 (z : ZClient) (known : List Int) (items : List (Int × Pending)) :
    List Int :=
  if doDiscover items then
    (if z.devices.isEmpty then known else z.devices)
  else known

/-- Events of the discovery block (runs first when the fleet discover flag
was pending): the `get_devices` call, then — only for a non-empty result —
the per-id discovery loop. -/
def evDisc (z : ZClient) (items : List (Int × Pending)) : List Ev :=
  if doDiscover items then
    Ev.getDevices z.devices ::
      (if z.devices.isEmpty then [] else discEvents z z.devices)
  else []

/-- Events of the refresh block (runs second, over the possibly-updated
known list, only when it is non-empty). -/
def evRef (z : ZClient) (known : List Int) (items : List (Int × Pending)) :
    List Ev :=
  if doRefresh items && !(known1 z known items).isEmpty then
    refreshEvents z (known1 z known items)
  else []

/-- `Bridge._execute` on a snapshot of the pending map: returns the new
known-device list and the ordered event trace (discovery block, then refresh
block, then the per-device loop). -/
def execute (z : ZClient) (known : List Int) (items : List (Int × Pending)) :
    List Int × List Ev :=
  (known1 z known items,
   evDisc z items ++ evRef z known items ++ execDevices z items)

def isSetOpE : Ev → Bool
  | .setOff _ => true
  | .fade _ _ => true
  | .setOn _ => true
  | _ => false

def isDiscoveryE : Ev → Bool
  | .getDevices _ => true
  | .getName _ _ => true
  | .pubDiscovery _ _ => true
  | _ => false

def isSetOpFor (d : Int) : Ev → Bool
  | .setOff x => decide (x = d)
  | .fade x _ => decide (x = d)
  | .setOn x => decide (x = d)
  | _ => false

def isGetNameFor (d : Int) : Ev → Bool
  | .getName x _ => decide (x = d)
  | _ => false

def isPubDiscFor (d : Int) : Ev → Bool
  | .pubDiscovery x _ => decide (x = d)
  | _ => false

def isGetNameE : Ev → Bool
  | .getName _ _ => true
  | _ => false

def isPubDiscE : Ev → Bool
  | .pubDiscovery _ _ => true
  | _ => false

def isPubStateE : Ev → Bool
  | .pubState _ _ => true
  | _ => false

/-- The single controller operation `_execute` issues for a concrete device
with a pending directive: Off, else Fade(level), else On. -/
def theOp (did : Int) (p : Pending) : Ev :=
  if p.off then Ev.setOff did
  else
    match p.level with
    | some l => Ev.fade did (clamp100 l)
    | none => Ev.setOn did

/-- The controller response that operation receives under oracle `z`. -/
def respOf (z : ZClient) (did : Int) (p : Pending) : Str :=
  if p.off then z.offResp did
  else
    match p.level with
    | some l => z.fadeResp did (clamp100 l)
    | none => z.onResp did

theorem execDevice_countP (q : Ev → Bool) (z : ZClient) (did : Int) (p : Pending)
    (h1 : ∀ d, q (Ev.setOff d) = false) (h2 : ∀ d l, q (Ev.fade d l) = false)
    (h3 : ∀ d, q (Ev.setOn d) = false) (h4 : ∀ d l, q (Ev.pubState d l) = false)
    (h5 : q Ev.gap = false) :
    (execDevice z did p).countP q = 0 := by
  rcases p with ⟨o, n, lv⟩
  rcases lv with _ | l <;> rcases o <;> rcases n <;>
    simp [execDevice, List.countP_cons, List.countP_append,
      apply_ite (List.countP q), h1, h2, h3, h4, h5]

theorem execDevices_countP (q : Ev → Bool) (z : ZClient)
    (h1 : ∀ d, q (Ev.setOff d) = false) (h2 : ∀ d l, q (Ev.fade d l) = false)
    (h3 : ∀ d, q (Ev.setOn d) = false) (h4 : ∀ d l, q (Ev.pubState d l) = false)
    (h5 : q Ev.gap = false) :
    ∀ items, (execDevices z items).countP q = 0 := by
  intro items
  induction items with
  | nil => rfl
  | cons x rest ih =>
    rw [execDevices, List.countP_append, ih,
      execDevice_countP q z x.1 x.2 h1 h2 h3 h4 h5]

theorem discEvents_countP (q : Ev → Bool) (z : ZClient)
    (h1 : ∀ d nm, q (Ev.getName d nm) = false)
    (h2 : ∀ d nm, q (Ev.pubDiscovery d nm) = false) (h3 : q Ev.gap = false) :
    ∀ ids, (discEvents z ids).countP q = 0 := by
  intro ids
  induction ids with
  | nil => rfl
  | cons i rest ih => simp [discEvents, List.countP_cons, h1, h2, h3, ih]

theorem refreshEvents_countP (q : Ev → Bool) (z : ZClient)
    (h1 : ∀ d, q (Ev.getLevel d) = false) (h2 : ∀ d l, q (Ev.pubState d l) = false)
    (h3 : q Ev.gap = false) :
    ∀ ids, (refreshEvents z ids).countP q = 0 := by
  intro ids
  induction ids with
  | nil => rfl
  | cons i rest ih =>
    cases hz : z.levelQ i <;>
      simp [refreshEvents, hz, List.countP_cons, List.countP_append, h1, h2, h3, ih]

theorem discEvents_countP_getName (z : ZClient) (d : Int) :
    ∀ ids, (discEvents z ids).countP (isGetNameFor d) =
      ids.countP (fun i => decide (i = d)) := by
  intro ids
  induction ids with
  | nil => rfl
  | cons i rest ih => simp [discEvents, List.countP_cons, isGetNameFor, ih]

theorem discEvents_countP_pubDisc (z : ZClient) (d : Int) :
    ∀ ids, (discEvents z ids).countP (isPubDiscFor d) =
      ids.countP (fun i => decide (i = d)) := by
  intro ids
  induction ids with
  | nil => rfl
  | cons i rest ih => simp [discEvents, List.countP_cons, isPubDiscFor, ih]

theorem execDevice_filter_self (z : ZClient) (did : Int) (p : Pending)
    (h0 : did ≠ 0) (hdir : p.off = true ∨ p.level ≠ none ∨ p.«on» = true) :
    (execDevice z did p).filter (isSetOpFor did) = [theOp did p] := by
  rcases p with ⟨o, n, lv⟩
  rcases lv with _ | l <;> rcases o <;> rcases n <;>
    simp_all [execDevice, theOp, isSetOpFor, List.filter_cons, List.filter_append,
      apply_ite (List.filter (isSetOpFor did))]

theorem execDevice_filter_other (z : ZClient) (did : Int) (p : Pending) (d : Int)
    (hne : did ≠ d) :
    (execDevice z did p).filter (isSetOpFor d) = [] := by
  rcases p with ⟨o, n, lv⟩
  rcases lv with _ | l <;> rcases o <;> rcases n <;>
    simp [execDevice, isSetOpFor, List.filter_cons, List.filter_append,
      apply_ite (List.filter (isSetOpFor d)), hne]

theorem execDevices_filter_none (z : ZClient) (d : Int) :
    ∀ items : List (Int × Pending), (∀ y ∈ items, y.1 ≠ d) →
      (execDevices z items).filter (isSetOpFor d) = [] := by
  intro items
  induction items with
  | nil => intro _; rfl
  | cons x rest ih =>
    intro h
    rw [execDevices, List.filter_append,
      execDevice_filter_other z x.1 x.2 d (h x (List.mem_cons_self x rest)),
      ih (fun y hy => h y (List.mem_cons_of_mem x hy))]
    rfl

theorem execDevices_filter_self (z : ZClient) :
    ∀ (items : List (Int × Pending)) (did : Int) (p : Pending),
      (items.map Prod.fst).Nodup → (did, p) ∈ items → did ≠ 0 →
      (p.off = true ∨ p.level ≠ none ∨ p.«on» = true) →
      (execDevices z items).filter (isSetOpFor did) = [theOp did p] := by
  intro items
  induction items with
  | nil => intro did p _ hm; simp at hm
  | cons x rest ih =>
    intro did p hnd hm h0 hdir
    have hnd1 : x.1 ∉ rest.map Prod.fst := by
      rw [List.map_cons, List.nodup_cons] at hnd
      exact hnd.1
    have hnd2 : (rest.map Prod.fst).Nodup := by
      rw [List.map_cons, List.nodup_cons] at hnd
      exact hnd.2
    rw [execDevices, List.filter_append]
    rcases List.mem_cons.mp hm with he | hm2
    · have hx1 : x.1 = did := by rw [← he]
      have hx2 : x.2 = p := by rw [← he]
      rw [hx1, hx2, execDevice_filter_self z did p h0 hdir,
        execDevices_filter_none z did rest ?_]
      · rfl
      · intro y hy hc
        rw [hx1] at hnd1
        exact hnd1 (hc ▸ List.mem_map_of_mem Prod.fst hy)
    · have hx : x.1 ≠ did := by
        intro hc
        have : did ∈ rest.map Prod.fst := by
          have := List.mem_map_of_mem Prod.fst hm2
          simpa using this
        rw [hc] at hnd1
        exact hnd1 this
      rw [execDevice_filter_other z x.1 x.2 did hx,
        ih did p hnd2 hm2 h0 hdir]
      rfl

theorem execDevice_pubState_count (z : ZClient) (did : Int) (p : Pending)
    (h0 : did ≠ 0) (hdir : p.off = true ∨ p.level ≠ none ∨ p.«on» = true) :
    (execDevice z did p).countP isPubStateE =
      if respOf z did p = [] then 0 else 1 := by
  rcases p with ⟨o, n, lv⟩
  rcases lv with _ | l <;> rcases o <;> rcases n <;>
    simp_all [execDevice, respOf, isPubStateE] <;>
    split_ifs <;>
    simp_all [List.countP_cons, List.countP_append, isPubStateE]

/-- C3: in one flush, for every concrete device with a pending directive,
exactly one controller set-operation is issued over the whole trace — Off if
`off` is set, else Fade(level) if a level is pending, else On — whose state
is published exactly when the controller response is non-empty; and every
discovery event precedes every per-device set-operation (the trace splits
into a set-op-free prefix containing all discovery events and a
discovery-free suffix). -/
theorem execute_per_device (z : ZClient) (known : List Int)
    (items : List (Int × Pending)) (hnd : (items.map Prod.fst).Nodup) :
    (∃ a b, (execute z known items).2 = a ++ b ∧
      a.countP isSetOpE = 0 ∧ b.countP isDiscoveryE = 0) ∧
    (∀ did p, (did, p) ∈ items → did ≠ 0 →
      (p.off = true ∨ p.level ≠ none ∨ p.«on» = true) →
      (execute z known items).2.filter (isSetOpFor did) = [theOp did p] ∧
      (respOf z did p = [] → (execDevice z did p).countP isPubStateE = 0) ∧
      (respOf z did p ≠ [] → (execDevice z did p).countP isPubStateE = 1)) := by
  have hdiscS : (evDisc z items).countP isSetOpE = 0 := by
    unfold evDisc
    split
    · rw [List.countP_cons]
      rw [discEvents_countP isSetOpE z (fun _ _ => rfl) (fun _ _ => rfl) rfl z.devices
          |>.symm]
      split <;> simp [isSetOpE,
        discEvents_countP isSetOpE z (fun _ _ => rfl) (fun _ _ => rfl) rfl]
    · rfl
  have hrefS : (evRef z known items).countP isSetOpE = 0 := by
    unfold evRef
    split
    · exact refreshEvents_countP isSetOpE z (fun _ => rfl) (fun _ _ => rfl) rfl _
    · rfl
  have hdevD : (execDevices z items).countP isDiscoveryE = 0 :=
    execDevices_countP isDiscoveryE z (fun _ => rfl) (fun _ _ => rfl) (fun _ => rfl)
      (fun _ _ => rfl) rfl items
  constructor
  · refine ⟨evDisc z items ++ evRef z known items, execDevices z items,
      by simp [execute, List.append_assoc], ?_, hdevD⟩
    rw [List.countP_append, hdiscS, hrefS]
  · intro did p hm h0 hdir
    refine ⟨?_, ?_, ?_⟩
    · have hdiscF : (evDisc z items).filter (isSetOpFor did) = [] := by
        refine List.filter_eq_nil_iff.mpr ?_
        intro e he
        unfold evDisc at he
        split at he
        · rcases List.mem_cons.mp he with he | he
          · rw [he]; simp [isSetOpFor]
          · split at he
            · simp at he
            · have := List.countP_eq_zero.mp
                (discEvents_countP (isSetOpFor did) z (fun _ _ => by simp [isSetOpFor])
                  (fun _ _ => by simp [isSetOpFor]) (by simp [isSetOpFor]) z.devices) e he
              simpa using this
        · simp at he
      have hrefF : (evRef z known items).filter (isSetOpFor did) = [] := by
        refine List.filter_eq_nil_iff.mpr ?_
        intro e he
        unfold evRef at he
        split at he
        · have := List.countP_eq_zero.mp
            (refreshEvents_countP (isSetOpFor did) z (fun _ => by simp [isSetOpFor])
              (fun _ _ => by simp [isSetOpFor]) (by simp [isSetOpFor]) _) e he
          simpa using this
        · simp at he
      show (evDisc z items ++ evRef z known items ++ execDevices z items).filter
          (isSetOpFor did) = [theOp did p]
      rw [List.filter_append, List.filter_append, hdiscF, hrefF,
        execDevices_filter_self z items did p hnd hm h0 hdir]
      rfl
    · intro hresp
      rw [execDevice_pubState_count z did p h0 hdir, if_pos hresp]
    · intro hresp
      rw [execDevice_pubState_count z did p h0 hdir, if_neg hresp]

/-- Witness for C3: a single pending Fade directive for device 1 with a
confirmed response yields exactly the Fade operation. -/
theorem execute_per_device_witness :
    (([((1 : Int), (⟨false, false, some 30⟩ : Pending))].map Prod.fst).Nodup) ∧
    (execute ⟨[], fun _ => [], fun _ => none, fun _ => [], fun _ _ => "ok".toList,
        fun _ => []⟩ [] [(1, ⟨false, false, some 30⟩)]).2.filter (isSetOpFor 1) =
      [Ev.fade 1 30] := by
  refine ⟨by decide, ?_⟩
  have h := (execute_per_device
    ⟨[], fun _ => [], fun _ => none, fun _ => [], fun _ _ => "ok".toList,
      fun _ => []⟩ [] [(1, ⟨false, false, some 30⟩)] (by decide)).2
    1 ⟨false, false, some 30⟩ (by decide) (by decide) (by decide)
  exact h.1.trans (by decide)

/-- C4: a flush whose discover flag is set and whose `get_devices` result is
`[3, 5]` replaces the known-device list by exactly `[3, 5]` and performs
exactly one name query and one discovery publish for each of the two ids. -/
theorem execute_discovery_replaces (z : ZClient) (known : List Int)
    (items : List (Int × Pending)) (hdev : z.devices = [3, 5])
    (hflag : doDiscover items = true) :
    (execute z known items).1 = [3, 5] ∧
    (execute z known items).2.countP (isGetNameFor 3) = 1 ∧
    (execute z known items).2.countP (isGetNameFor 5) = 1 ∧
    (execute z known items).2.countP (isPubDiscFor 3) = 1 ∧
    (execute z known items).2.countP (isPubDiscFor 5) = 1 := by
  have hknown : known1 z known items = [3, 5] := by
    unfold known1
    rw [hflag, if_pos rfl, hdev]
    rfl
  have hdevGN : ∀ d, (execDevices z items).countP (isGetNameFor d) = 0 :=
    fun d => execDevices_countP (isGetNameFor d) z (fun _ => rfl) (fun _ _ => rfl)
      (fun _ => rfl) (fun _ _ => rfl) rfl items
  have hdevPD : ∀ d, (execDevices z items).countP (isPubDiscFor d) = 0 :=
    fun d => execDevices_countP (isPubDiscFor d) z (fun _ => rfl) (fun _ _ => rfl)
      (fun _ => rfl) (fun _ _ => rfl) rfl items
  have hrefGN : ∀ d, (evRef z known items).countP (isGetNameFor d) = 0 := by
    intro d
    unfold evRef
    split
    · exact refreshEvents_countP (isGetNameFor d) z (fun _ => rfl) (fun _ _ => rfl)
        rfl _
    · rfl
  have hrefPD : ∀ d, (evRef z known items).countP (isPubDiscFor d) = 0 := by
    intro d
    unfold evRef
    split
    · exact refreshEvents_countP (isPubDiscFor d) z (fun _ => rfl) (fun _ _ => rfl)
        rfl _
    · rfl
  have hdiscGN : ∀ d : Int, (evDisc z items).countP (isGetNameFor d) =
      [(3 : Int), 5].countP (fun i => decide (i = d)) := by
    intro d
    unfold evDisc
    rw [if_pos hflag, hdev, List.countP_cons]
    simp [isGetNameFor, discEvents_countP_getName]
  have hdiscPD : ∀ d : Int, (evDisc z items).countP (isPubDiscFor d) =
      [(3 : Int), 5].countP (fun i => decide (i = d)) := by
    intro d
    unfold evDisc
    rw [if_pos hflag, hdev, List.countP_cons]
    simp [isPubDiscFor, discEvents_countP_pubDisc]
  have htr : (execute z known items).2 =
      evDisc z items ++ evRef z known items ++ execDevices z items := rfl
  refine ⟨hknown, ?_, ?_, ?_, ?_⟩ <;>
    rw [htr, List.countP_append, List.countP_append]
  · rw [hdiscGN 3, hrefGN 3, hdevGN 3]; decide
  · rw [hdiscGN 5, hrefGN 5, hdevGN 5]; decide
  · rw [hdiscPD 3, hrefPD 3, hdevPD 3]; decide
  · rw [hdiscPD 5, hrefPD 5, hdevPD 5]; decide

/-- Witness for C4: discovery returning `[3, 5]` on a flush with the fleet
discover flag set. -/
theorem execute_discovery_replaces_witness :
    ((⟨[3, 5], fun _ => "nm".toList, fun _ => none, fun _ => [], fun _ _ => [],
        fun _ => []⟩ : ZClient).devices = [3, 5]) ∧
    doDiscover [((0 : Int), (⟨false, true, none⟩ : Pending))] = true ∧
    (execute ⟨[3, 5], fun _ => "nm".toList, fun _ => none, fun _ => [],
        fun _ _ => [], fun _ => []⟩ [9] [(0, ⟨false, true, none⟩)]).1 = [3, 5] :=
  ⟨rfl, by decide,
   (execute_discovery_replaces _ [9] [(0, ⟨false, true, none⟩)] rfl (by decide)).1⟩

/-- Outcome of one `_send_raw` attempt: a response, a transient I/O error
(`BrokenPipeError` / `ConnectionResetError` / `OSError`), or any other
exception. -/
inductive SendRes where
  | ok (resp : Str)
  | transient
  | fatal
deriving DecidableEq, Repr

/-- Environment of one loop iteration of `send_command`: whether `_login()`
would succeed if attempted, and what the subsequent `_send_raw` would do. -/
structure Attempt where
  loginOk : Bool
  send : SendRes
deriving DecidableEq, Repr

/-- Session-level actions `send_command` performs, in order.  `login` stands
for the whole `_login()` (close any socket, reconnect, send the login
request); `close` for `_close()` tearing the session down. -/
inductive Act where
  | login
  | sendRaw
  | close
deriving DecidableEq, Repr

/-- `ZenseClient.send_command`: the retry loop `for attempt in
range(retry + 1)` over per-iteration outcomes (one list entry per
iteration; the default `retry = 1` corresponds to a two-entry list).  The
Boolean state is `logged_in and sock`, which the source always toggles
together.  A failed `_login()` returns `""` at once; a transient send error
closes the session and continues the loop; any other exception closes the
session and returns `""`; a response is returned as is. -/
def send_command : Bool → List Attempt → Str × List Act
  | _, [] => ([], [])
  | st, a :: rest =>
    if st then
      match a.send with
      | .ok r => (r, [.sendRaw])
      | .transient =>
        let x := send_command false rest
        (x.1, .sendRaw :: .close :: x.2)
      | .fatal => ([], [.sendRaw, .close])
    else
      if a.loginOk then
        match a.send with
        | .ok r => (r, [.login, .sendRaw])
        | .transient =>
          let x := send_command false rest
          (x.1, .login :: .sendRaw :: .close :: x.2)
        | .fatal => ([], [.login, .sendRaw, .close])
      else ([], [.login])

/-- Number of occurrences of one action in a trace. -/
def countAct (a : Act) (l : List Act) : Nat :=
  l.countP fun x => decide (x = a)

/-- C2: with the default retry count, a transient I/O error on the first
send (session logged in) tears the session down and triggers exactly one
reconnect + re-login and at most one resend: the trace starts with the
failed send and the teardown, contains exactly one login, and contains a
second send exactly when the re-login succeeded.  If the retry fails in any
way (login failure, second transient error, or any other exception) the
result is the empty string; if the resend succeeds its response is returned.
An empty (unconfirmed) response makes the scheduler publish no state for
the operation: the per-device Fade execution emits no `pub_state` call. -/
theorem send_command_one_retry (a1 a2 : Attempt) (h : a1.send = SendRes.transient) :
    countAct Act.login (send_command true [a1, a2]).2 = 1 ∧
    countAct Act.sendRaw (send_command true [a1, a2]).2 =
      (if a2.loginOk then 2 else 1) ∧
    (send_command true [a1, a2]).2.take 2 = [Act.sendRaw, Act.close] ∧
    (a2.loginOk = false → (send_command true [a1, a2]).1 = []) ∧
    (a2.send = SendRes.transient → (send_command true [a1, a2]).1 = []) ∧
    (a2.send = SendRes.fatal → (send_command true [a1, a2]).1 = []) ∧
    (∀ r, a2.loginOk = true → a2.send = SendRes.ok r →
      (send_command true [a1, a2]).1 = r) ∧
    (∀ (z : ZClient) (did l : Int), z.fadeResp did (clamp100 l) = [] →
      (execDevice z did ⟨false, false, some l⟩).countP isPubStateE = 0) := by
  have hpub : ∀ (z : ZClient) (did l : Int), z.fadeResp did (clamp100 l) = [] →
      (execDevice z did ⟨false, false, some l⟩).countP isPubStateE = 0 := by
    intro z did l hz
    by_cases h0 : did = 0 <;>
      simp [execDevice, h0, hz, isPubStateE, List.countP_cons, List.countP_append]
  rcases a2 with ⟨lok, snd⟩
  rcases lok <;> rcases snd with r | _ | _ <;>
    refine ⟨?_, ?_, ?_, ?_, ?_, ?_, ?_, hpub⟩ <;>
    (intros; simp_all [send_command, countAct, List.countP_cons])

/-- Witness for C2: both the first send and the retried send hit a transient
error; the login succeeds once, the command is resent once, and the result
is empty. -/
theorem send_command_one_retry_witness :
    (({ loginOk := true, send := SendRes.transient } : Attempt).send =
      SendRes.transient) ∧
    countAct Act.login
      (send_command true [⟨true, SendRes.transient⟩, ⟨true, SendRes.transient⟩]).2 =
      1 ∧
    (send_command true [⟨true, SendRes.transient⟩, ⟨true, SendRes.transient⟩]).1 =
      [] :=
  ⟨rfl,
   (send_command_one_retry ⟨true, SendRes.transient⟩ ⟨true, SendRes.transient⟩
      rfl).1,
   (send_command_one_retry ⟨true, SendRes.transient⟩ ⟨true, SendRes.transient⟩
      rfl).2.2.2.2.1 rfl⟩

/-- The characters Python's `str.strip()` removes. -/
def isPySpace (c : Char) : Bool :=
  c == ' ' || c == '\t' || c == '\n' || c == '\r' || c == '\x0b' || c == '\x0c'

/-- Drop trailing characters satisfying `p`. -/
def dropEndWhile (p : Char → Bool) (s : Str) : Str :=
  (s.reverse.dropWhile p).reverse

/-- Python `str.strip(chars)`: drop the matching characters from both ends. -/
def stripWhile (p : Char → Bool) (s : Str) : Str :=
  dropEndWhile p (s.dropWhile p)

/-- Python `str.strip()`. -/
def trimCL (s : Str) : Str := stripWhile isPySpace s

/-- The single-quote character (U+0027). -/
def quoteChar : Char := Char.ofNat 39

/-- Python `str.strip(chr(39))` as used on parsed device names. -/
def stripQuotesCL (s : Str) : Str := stripWhile (fun c => c == quoteChar) s

/-- ASCII lower-casing (the sentinel compared against is "timeout", for
which Python's full-Unicode `str.lower` agrees with ASCII). -/
def asciiLower (c : Char) : Char :=
  if c.isUpper then Char.ofNat (c.toNat + 32) else c

/-- Python `str.lower()` on the ASCII fragment. -/
def lowerCL (s : Str) : Str := s.map asciiLower

/-- Python `str.split(sep)` for non-empty `sep`, with explicit fuel (one
unit per consumed character) so that it is structurally recursive: at each
position, a leftmost occurrence of `sep` ends the current piece. -/
def splitGo (sep : Str) : Nat → Str → List Str
  | _, [] => [[]]
  | 0, s => [s]
  | fuel + 1, c :: rest =>
    if sep.isPrefixOf (c :: rest) then
      [] :: splitGo sep fuel ((c :: rest).drop sep.length)
    else
      match splitGo sep fuel rest with
      | [] => [[c]]
      | x :: xs => (c :: x) :: xs

/-- Python `s.split(sep)` (the fuel `s.length + 1` always suffices). -/
def splitOnCL (sep s : Str) : List Str := splitGo sep (s.length + 1) s

/-- Python `int(x)` guarded by `x.isdigit()` (ASCII digits — the id lists
the controller returns are ASCII): `some` of the decimal value exactly for
non-empty all-digit tokens. -/
def pyToNat (s : Str) : Option Nat :=
  if s ≠ [] ∧ s.all Char.isDigit then
    some (s.foldl (fun a c => a * 10 + (c.toNat - 48)) 0)
  else none

/-- Decimal digits of `n` (fuel-based structural recursion). -/
def natChars : Nat → Nat → Str
  | 0, _ => []
  | fuel + 1, n =>
    if n < 10 then [Char.ofNat (48 + n)]
    else natChars fuel (n / 10) ++ [Char.ofNat (48 + n % 10)]

/-- Python `f"{i}"` for an int. -/
def intChars (i : Int) : Str :=
  if i < 0 then '-' :: natChars (i.natAbs + 1) i.natAbs
  else natChars (i.toNat + 1) i.toNat

/-- `ZenseClient.get_devices` as a function of the raw response: when the
`">>Get Devices "` prefix occurs, take the text up to the next `"<<"`
(or to the end), split on commas, strip each token, and keep exactly the
pure-digit tokens as ids; otherwise (including the empty response of a
failed send) return `[]`. -/
def get_devices (resp : Str) : List Int :=
  match splitOnCL ">>Get Devices ".toList resp with
  | _ :: afterSep :: _ =>
    let part := (splitOnCL "<<".toList afterSep).headD []
    let ids := (splitOnCL ",".toList part).map trimCL
    ids.filterMap fun x => (pyToNat x).map Int.ofNat
  | _ => []

/-- `ZenseClient.get_name` as a function of the raw response: when the
`">>Get Name "` prefix occurs, the candidate name is the text up to the next
`"<<"` (or to the end), stripped of whitespace and quotes; it is returned
when non-empty and not the "timeout" sentinel (case-insensitively), and the
synthesized `f"Device_{did}"` is returned in every other case. -/
def get_name (resp : Str) (did : Int) : Str :=
  match splitOnCL ">>Get Name ".toList resp with
  | _ :: afterSep :: _ =>
    let nm := stripQuotesCL (trimCL ((splitOnCL "<<".toList afterSep).headD []))
    if nm ≠ [] ∧ lowerCL nm ≠ "timeout".toList then nm
    else "Device_".toList ++ intChars did
  | _ => "Device_".toList ++ intChars did

/-- The name `get_name` extracts, `none` when the prefix is absent. -/
def extract_name (resp : Str) : Option Str :=
  match splitOnCL ">>Get Name ".toList resp with
  | _ :: afterSep :: _ =>
    some (stripQuotesCL (trimCL ((splitOnCL "<<".toList afterSep).headD [])))
  | _ => none

/-- C9 (amended): `get_name` returns the extracted name exactly when the
`">>Get Name "` prefix is present and the extracted name (the text up to the
end marker, or up to the end of the response when the marker is absent) is
non-empty and not the case-insensitive "Timeout" sentinel; in every other
case — absent prefix, empty name, or the sentinel — it returns the
synthesized `Device_{did}` fallback instead of failing. -/
theorem get_name_fallback :
    (∀ (resp : Str) (did : Int),
      get_name resp did =
        match extract_name resp with
        | some nm =>
          if nm ≠ [] ∧ lowerCL nm ≠ "timeout".toList then nm
          else "Device_".toList ++ intChars did
        | none => "Device_".toList ++ intChars did) ∧
    get_name ">>Get Name Kitchen<<".toList 7 = "Kitchen".toList ∧
    get_name ">>Get Name Timeout<<".toList 7 = "Device_7".toList ∧
    get_name ">>Get Name TIMEOUT<<".toList 7 = "Device_7".toList ∧
    get_name ">>Get Name <<".toList 7 = "Device_7".toList ∧
    get_name "garbage".toList 7 = "Device_7".toList := by
  refine ⟨?_, by decide, by decide, by decide, by decide, by decide⟩
  intro resp did
  unfold get_name extract_name
  cases hsp : splitOnCL ">>Get Name ".toList resp with
  | nil => rfl
  | cons a t =>
    cases t with
    | nil => rfl
    | cons b t2 => rfl

/-- Counterexample to C9 as stated: a response carrying the prefix but no
`"<<"` end marker still yields the parsed name, not the fallback. -/
theorem get_name_missing_marker_cex :
    get_name ">>Get Name Lamp".toList 7 = "Lamp".toList ∧
    "Lamp".toList ≠ "Device_7".toList ∧
    splitOnCL "<<".toList ">>Get Name Lamp".toList = [">>Get Name Lamp".toList] := by
  refine ⟨by decide, by decide, by decide⟩

/-- C10: when a flush's discovery flag is set but `get_devices` yields `[]`,
the known-device list is left unchanged and no name query or discovery
publish happens; and `get_devices` yields `[]` on an empty response (failed
send) and on any response without the expected prefix, while dropping every
comma-separated token that is not a pure digit string. -/
theorem execute_empty_discovery :
    (∀ (z : ZClient) (known : List Int) (items : List (Int × Pending)),
      z.devices = [] →
      (execute z known items).1 = known ∧
      (execute z known items).2.countP isGetNameE = 0 ∧
      (execute z known items).2.countP isPubDiscE = 0) ∧
    get_devices [] = [] ∧
    (∀ resp : Str, (splitOnCL ">>Get Devices ".toList resp).length ≤ 1 →
      get_devices resp = []) ∧
    get_devices ">>Get Devices 3, x, 5<<".toList = [3, 5] := by
  refine ⟨?_, by decide, ?_, by decide⟩
  · intro z known items hdev
    have hk : known1 z known items = known := by
      simp [known1, hdev]
    have hdisc : ∀ q : Ev → Bool, q (Ev.getDevices []) = false →
        (evDisc z items).countP q = 0 := by
      intro q hq
      unfold evDisc
      rw [hdev]
      split
      · simp [List.countP_cons, hq, discEvents]
      · rfl
    have href : ∀ q : Ev → Bool, (∀ d, q (Ev.getLevel d) = false) →
        (∀ d l, q (Ev.pubState d l) = false) → q Ev.gap = false →
        (evRef z known items).countP q = 0 := by
      intro q h1 h2 h3
      unfold evRef
      split
      · exact refreshEvents_countP q z h1 h2 h3 _
      · rfl
    have htr : (execute z known items).2 =
        evDisc z items ++ evRef z known items ++ execDevices z items := rfl
    refine ⟨hk, ?_, ?_⟩ <;> rw [htr, List.countP_append, List.countP_append]
    · rw [hdisc isGetNameE rfl, href isGetNameE (fun _ => rfl) (fun _ _ => rfl) rfl,
        execDevices_countP isGetNameE z (fun _ => rfl) (fun _ _ => rfl)
          (fun _ => rfl) (fun _ _ => rfl) rfl items]
    · rw [hdisc isPubDiscE rfl, href isPubDiscE (fun _ => rfl) (fun _ _ => rfl) rfl,
        execDevices_countP isPubDiscE z (fun _ => rfl) (fun _ _ => rfl)
          (fun _ => rfl) (fun _ _ => rfl) rfl items]
  · intro resp hlen
    unfold get_devices
    cases hsp : splitOnCL ">>Get Devices ".toList resp with
    | nil => rfl
    | cons a t =>
      cases t with
      | nil => rfl
      | cons b t2 =>
        rw [hsp] at hlen
        simp at hlen

/-- Witness for C10: an empty `get_devices` result leaves `known = [4]`
unchanged, and a prefix-less response parses to no ids. -/
theorem execute_empty_discovery_witness :
    ((⟨[], fun _ => [], fun _ => none, fun _ => [], fun _ _ => [],
        fun _ => []⟩ : ZClient).devices = []) ∧
    (splitOnCL ">>Get Devices ".toList "nope".toList).length ≤ 1 ∧
    (execute ⟨[], fun _ => [], fun _ => none, fun _ => [], fun _ _ => [],
        fun _ => []⟩ [4] [(2, ⟨true, false, none⟩)]).1 = [4] ∧
    get_devices "nope".toList = [] :=
  ⟨rfl, by decide,
   (execute_empty_discovery.1 _ [4] [(2, ⟨true, false, none⟩)] rfl).1,
   execute_empty_discovery.2.2.1 "nope".toList (by decide)⟩

end ZenseBridge
